import Mathlib

/-
  Verification development for the Writer Memory System
  (memory-manager.ts, character-tracker.ts, relationship-graph.ts,
  scene-manager.ts).

  The store is a single JSON document (`.writer-memory/memory.json`)
  plus a backup directory.  We embed the document shallowly: the parsed
  document is a Lean structure, the file system is a `FS` record holding
  the parse of the main file (`none` for a missing or corrupt file, as
  `loadMemory` returns `null` in both cases) and the list of file names
  in the backup directory.  `JSON.parse ∘ JSON.stringify` is treated as
  the identity on documents, and I/O primitives are assumed to succeed;
  each operation takes the timestamps (`now()`) and generated ids
  (`generateId`) it consumes as explicit parameters, since those are
  environment inputs.  Every `loadMemory()` call in the source returns a
  freshly parsed, independent object; this matches pure value semantics
  exactly, which is what makes the aliasing slips in the relationship
  module (`updateRelationship`, `addRelationshipEvent`) visible here.
-/

set_option linter.unusedVariables false

namespace WM

/-- Speech level union from memory-manager.ts; the source literals are
반말 (informal), 존댓말 (formal), 해체 (casual), 혼합 (mixed). -/
inductive SpeechLevel where
  | formal
  | informal
  | casual
  | mixed
  deriving DecidableEq

/-- RelationshipType union from memory-manager.ts. -/
inductive RelationshipType where
  | romantic
  | familial
  | friendship
  | antagonistic
  | professional
  | mentor
  | complex
  deriving DecidableEq

/-- EmotionPoint interface.  `intensity` is a JSON number (1..5 in the
type annotation, arbitrary in loaded data), modelled as Int. -/
structure EmotionPoint where
  timestamp : String
  sceneId : Option String
  emotion : String
  trigger : String
  intensity : Int
  deriving DecidableEq

/-- Character interface from memory-manager.ts. -/
structure Character where
  id : String
  name : String
  aliases : List String
  arc : String
  tone : String
  speechLevel : SpeechLevel
  keywords : List String
  attitude : String
  timeline : List EmotionPoint
  notes : String
  created : String
  updated : String
  taboo : Option (List String)
  emotional_baseline : Option String
  triggers : Option (List String)
  deriving DecidableEq

/-- WorldRule interface. -/
structure WorldRule where
  id : String
  category : String
  description : String
  deriving DecidableEq

/-- Location interface. -/
structure Location where
  id : String
  name : String
  description : String
  atmosphere : String
  connectedTo : List String
  deriving DecidableEq

/-- WorldMemory interface. -/
structure WorldMemory where
  name : String
  era : String
  atmosphere : String
  rules : List WorldRule
  locations : List Location
  culturalNotes : List String
  notes : String
  deriving DecidableEq

/-- RelationshipEvent interface. -/
structure RelationshipEvent where
  timestamp : String
  sceneId : Option String
  change : String
  catalyst : String
  deriving DecidableEq

/-- Relationship interface.  The source fields `from` and `to` are named
`fromName` / `toName` here because `from` is a reserved word in Lean. -/
structure Relationship where
  id : String
  fromName : String
  toName : String
  type : RelationshipType
  dynamic : String
  speechLevel : Option SpeechLevel
  evolution : List RelationshipEvent
  notes : Option String
  created : String
  deriving DecidableEq

/-- Cut type union from memory-manager.ts. -/
inductive CutType where
  | dialogue
  | narration
  | action
  | internal
  deriving DecidableEq

/-- Cut interface.  `order` is only ever written from list indices, so it
is modelled as Nat. -/
structure Cut where
  order : Nat
  type : CutType
  content : String
  character : Option String
  emotionTag : Option String
  deriving DecidableEq

/-- Scene interface. -/
structure Scene where
  id : String
  title : String
  chapter : Option String
  order : Nat
  characters : List String
  emotionTags : List String
  cuts : List Cut
  narrationTone : Option String
  notes : Option String
  created : String
  deriving DecidableEq

/-- Theme interface. -/
structure Theme where
  id : String
  name : String
  description : String
  keywords : List String
  relatedCharacters : List String
  relatedScenes : List String
  deriving DecidableEq

/-- SynopsisState interface. -/
structure SynopsisState where
  protagonistAttitude : String
  coreRelationships : String
  emotionalTheme : String
  genreVsRealEmotion : String
  endingAftertaste : String
  lastGenerated : Option String
  deriving DecidableEq

/-- ProjectMeta interface. -/
structure ProjectMeta where
  name : String
  genre : String
  created : String
  updated : String
  deriving DecidableEq

/-- WriterMemory interface (the whole document).  `characters` is a JS
object keyed by character name: an insertion-ordered association list
with unique keys (JSON objects and the store's own writes keep keys
unique).  `version` is a String so that the validator's version check is
meaningful on arbitrary loaded documents. -/
structure WriterMemory where
  version : String
  project : ProjectMeta
  characters : List (String × Character)
  world : WorldMemory
  relationships : List Relationship
  scenes : List Scene
  themes : List Theme
  synopsis : SynopsisState
  deriving DecidableEq

/-- ValidationResult interface. -/
structure ValidationResult where
  valid : Bool
  errors : List String
  warnings : List String
  deriving DecidableEq

/-- MAX_BACKUPS constant. -/
def MAX_BACKUPS : Nat := 20

/-- The file-system state the store operations act on: the parse of
`.writer-memory/memory.json` (`none` when the file is missing or does
not parse) and the file names present in `.writer-memory/backups/`,
kept as the lexicographically sorted listing of that directory. -/
structure FS where
  disk : Option WriterMemory
  backups : List String
  deriving DecidableEq

/-- loadMemory(): reads and parses the main file; `null` when missing or
corrupt.  Each call returns an independent parse of the same content. -/
def loadMemory (fs : FS) : Option WriterMemory :=
  fs.disk

/-- The `.replace(/[:.]/g, "-")` applied to the ISO timestamp used in
backup file names. -/
def sanitizeTs (ts : String) : String :=
  ⟨ts.data.map (fun c => if c = ':' ∨ c = '.' then '-' else c)⟩

/-- Backup file name `memory-<sanitized timestamp>.json` from createBackup. -/
def backupFileName (ts : String) : String :=
  "memory-" ++ sanitizeTs ts ++ ".json"

/-- Writing a file into the backup directory: `writeFileSync` creates the
name if absent and overwrites in place if present. -/
def insertIfNew (name : String) (dir : List String) : List String :=
  if name ∈ dir then dir else name :: dir

/-- pruneBackups' while-loop: `while (files.length > MAX_BACKUPS)
files.shift(); unlink(...)` — repeatedly delete the lexicographically
smallest backup while more than MAX_BACKUPS remain. -/
def pruneLoop (l : List String) : List String :=
  if MAX_BACKUPS < l.length then
    match l with
    | [] => []
    | _ :: rest => pruneLoop rest
  else l

/-- createBackup followed by pruneBackups, at the level of the backup
directory's name listing: write the new file, list the directory sorted
(`readdirSync(...).sort()`; every file in the directory was written by
createBackup, so the `memory-*.json` name filter keeps everything), and
delete the smallest names until at most MAX_BACKUPS remain. -/
def backupStep (dir : List String) (name : String) : List String :=
  pruneLoop (List.insertionSort (· ≤ ·) (insertIfNew name dir))

/-- The `memory.project.updated = now()` refresh performed by saveMemory
just before serializing. -/
def refreshUpdated (memory : WriterMemory) (t : String) : WriterMemory :=
  { memory with project := { memory.project with updated := t } }

/-- saveMemory(memory): if a main file exists its parsed content is backed
up under a timestamped name, then `project.updated` is refreshed and the
document is written via temp-file-plus-rename.  `t` stands for the
`now()` / `toISOString()` calls of this save. -/
def saveMemoryFS (fs : FS) (memory : WriterMemory) (t : String) : FS :=
  let backups' :=
    match fs.disk with
    | some _ => backupStep fs.backups (backupFileName t)
    | none => fs.backups
  { disk := some (refreshUpdated memory t), backups := backups' }

-- ---------------------------------------------------------------------------
-- memory-manager.ts: search / query helpers
-- ---------------------------------------------------------------------------

/-- JS object property read `memory.characters[k]` on the name-keyed
character map (keys are unique). -/
def lookupChar (chars : List (String × Character)) (k : String) : Option Character :=
  (chars.find? (fun kv => kv.1 = k)).map (·.2)

/-- The direction-agnostic pair test used by findRelationship /
addRelationship / getRelationship / removeRelationship:
`(r.from === c1 && r.to === c2) || (r.from === c2 && r.to === c1)`. -/
def pairPred (char1 char2 : String) (r : Relationship) : Bool :=
  (r.fromName = char1 ∧ r.toName = char2) ∨ (r.fromName = char2 ∧ r.toName = char1)

/-- findSceneById: first scene whose id matches, else null. -/
def findSceneById (memory : WriterMemory) (id : String) : Option Scene :=
  memory.scenes.find? (fun s => s.id = id)

-- ---------------------------------------------------------------------------
-- memory-manager.ts: validateMemory
-- ---------------------------------------------------------------------------

/-- Error string pushed for a character map key that differs from the
character's own id field. -/
def keyMismatchError (key cid : String) : String :=
  "Character key \"" ++ key ++ "\" does not match character.id \"" ++ cid ++ "\""

/-- Error string pushed for a character with an empty name. -/
def noNameError (key : String) : String :=
  "Character \"" ++ key ++ "\" has no name"

/-- Version / project-metadata error section of validateMemory. -/
def headErrors (memory : WriterMemory) : List String :=
  (if memory.version ≠ "1.0" then
    ["Unsupported version: \"" ++ memory.version ++ "\" (expected \"1.0\")"] else []) ++
  (if memory.project.name = "" then ["Project name is empty"] else []) ++
  (if memory.project.created = "" then ["Project created timestamp is missing"] else [])

/-- Character error section of validateMemory: key/id mismatch and
missing name, in entry order. -/
def characterErrors (chars : List (String × Character)) : List String :=
  chars.flatMap (fun kv =>
    (if kv.2.id ≠ kv.1 then [keyMismatchError kv.1 kv.2.id] else []) ++
    (if kv.2.name = "" then [noNameError kv.1] else []))

/-- Character warning section: emotion-point intensity out of [1,5] and
dangling timeline scene references (the `ep.sceneId &&` guard makes an
empty sceneId skip the check). -/
def characterWarnings (memory : WriterMemory) : List String :=
  memory.characters.flatMap (fun kv =>
    kv.2.timeline.flatMap (fun ep =>
      (if ep.intensity < 1 ∨ 5 < ep.intensity then
        ["Character \"" ++ kv.2.name ++ "\" has emotion point with intensity " ++
          toString ep.intensity ++ " (expected 1-5)"] else []) ++
      (match ep.sceneId with
       | some sid =>
         if sid ≠ "" ∧ ¬ memory.scenes.any (fun s => s.id = sid) then
           ["Character \"" ++ kv.2.name ++ "\" references non-existent scene \"" ++
             sid ++ "\" in timeline"] else []
       | none => [])))

/-- Relationship error section: endpoints must be keys of the character
map (`charIds = new Set(Object.keys(memory.characters))`). -/
def relationshipErrors (memory : WriterMemory) : List String :=
  let charKeys := memory.characters.map Prod.fst
  memory.relationships.flatMap (fun rel =>
    (if rel.fromName ∉ charKeys then
      ["Relationship \"" ++ rel.id ++ "\" references non-existent character \"" ++
        rel.fromName ++ "\""] else []) ++
    (if rel.toName ∉ charKeys then
      ["Relationship \"" ++ rel.id ++ "\" references non-existent character \"" ++
        rel.toName ++ "\""] else []))

/-- Relationship warning section: self-referential pair. -/
def relationshipWarnings (memory : WriterMemory) : List String :=
  memory.relationships.flatMap (fun rel =>
    if rel.fromName = rel.toName then
      ["Relationship \"" ++ rel.id ++ "\" is self-referential (from === to === \"" ++
        rel.fromName ++ "\")"] else [])

/-- Scene error section: duplicate ids, detected against the set of ids
seen so far. -/
def dupSceneErrors : List Scene → List String → List String
  | [], _ => []
  | s :: rest, seen =>
    (if s.id ∈ seen then ["Duplicate scene ID: \"" ++ s.id ++ "\""] else []) ++
    dupSceneErrors rest (s.id :: seen)

/-- Scene warning section: dangling character references and cutless scenes. -/
def sceneWarnings (memory : WriterMemory) : List String :=
  let charKeys := memory.characters.map Prod.fst
  memory.scenes.flatMap (fun scene =>
    scene.characters.flatMap (fun charId =>
      if charId ∉ charKeys then
        ["Scene \"" ++ scene.title ++ "\" references non-existent character \"" ++
          charId ++ "\""] else []) ++
    (if scene.cuts = [] then ["Scene \"" ++ scene.title ++ "\" has no cuts"] else []))

/-- Theme warning section: dangling character / scene references (the
scene-id set is complete by the time themes are checked). -/
def themeWarnings (memory : WriterMemory) : List String :=
  let charKeys := memory.characters.map Prod.fst
  let sceneIds := memory.scenes.map Scene.id
  memory.themes.flatMap (fun theme =>
    theme.relatedCharacters.flatMap (fun charId =>
      if charId ∉ charKeys then
        ["Theme \"" ++ theme.name ++ "\" references non-existent character \"" ++
          charId ++ "\""] else []) ++
    theme.relatedScenes.flatMap (fun sid =>
      if sid ∉ sceneIds then
        ["Theme \"" ++ theme.name ++ "\" references non-existent scene \"" ++
          sid ++ "\""] else []))

/-- validateMemory: all error pushes in program order, all warning pushes
in program order, `valid` iff no errors. -/
def validateMemory (memory : WriterMemory) : ValidationResult :=
  let errors :=
    headErrors memory ++ characterErrors memory.characters ++
    relationshipErrors memory ++ dupSceneErrors memory.scenes []
  let warnings :=
    (if memory.project.genre = "" then ["Project genre is empty"] else []) ++
    characterWarnings memory ++ relationshipWarnings memory ++
    sceneWarnings memory ++ themeWarnings memory
  { valid := errors.length = 0, errors := errors, warnings := warnings }

-- ---------------------------------------------------------------------------
-- character-tracker.ts
-- ---------------------------------------------------------------------------

/-- findCharacter helper: direct map lookup, then linear alias scan over
`Object.values` (insertion order).  Returns the entry together with its
map key, so in-place mutations of the found character can be written
back to the right slot of the map. -/
def findCharacterEntry (memory : WriterMemory) (nameOrAlias : String) :
    Option (String × Character) :=
  match memory.characters.find? (fun kv => kv.1 = nameOrAlias) with
  | some kv => some kv
  | none => memory.characters.find? (fun kv => kv.2.aliases.contains nameOrAlias)

/-- Replacement of the character stored under an existing key (the pure
rendering of mutating the found character object in place). -/
def updateCharAt (chars : List (String × Character)) (key : String)
    (c : Character) : List (String × Character) :=
  chars.map (fun kv => if kv.1 = key then (key, c) else kv)

/-- Options bag of addCharacter. -/
structure AddCharacterOptions where
  arc : Option String
  tone : Option String
  speechLevel : Option SpeechLevel
  attitude : Option String
  keywords : Option (List String)
  notes : Option String
  deriving DecidableEq

/-- addCharacter(name, options): fails on a missing store or a taken name
key; otherwise stores a new character under map key `name` with a
freshly generated id (`newId` stands for `generateId('char')`). -/
def addCharacter (fs : FS) (name : String) (options : AddCharacterOptions)
    (newId t : String) : FS × Option Character :=
  match loadMemory fs with
  | none => (fs, none)
  | some memory =>
    match lookupChar memory.characters name with
    | some _ => (fs, none)
    | none =>
      let character : Character :=
        { id := newId, name := name, aliases := [],
          arc := options.arc.getD "", tone := options.tone.getD "",
          speechLevel := options.speechLevel.getD .informal,
          attitude := options.attitude.getD "",
          keywords := options.keywords.getD [], timeline := [],
          notes := options.notes.getD "", created := t, updated := t,
          taboo := none, emotional_baseline := none, triggers := none }
      let memory' := { memory with
        characters := memory.characters ++ [(name, character)] }
      (saveMemoryFS fs memory' t, some character)

/-- addAlias(characterName, alias): pushes the alias and saves only when
it is not already present; reports true whenever the character resolves. -/
def addAlias (fs : FS) (characterName aliasName t : String) : FS × Bool :=
  match loadMemory fs with
  | none => (fs, false)
  | some memory =>
    match findCharacterEntry memory characterName with
    | none => (fs, false)
    | some (key, character) =>
      if aliasName ∈ character.aliases then (fs, true)
      else
        let character' := { character with
          aliases := character.aliases ++ [aliasName], updated := t }
        (saveMemoryFS fs
          { memory with characters := updateCharAt memory.characters key character' }
          t, true)

/-- removeAlias(characterName, alias): splices the alias out and saves
when present (true); returns false when the alias is absent. -/
def removeAlias (fs : FS) (characterName aliasName t : String) : FS × Bool :=
  match loadMemory fs with
  | none => (fs, false)
  | some memory =>
    match findCharacterEntry memory characterName with
    | none => (fs, false)
    | some (key, character) =>
      if aliasName ∈ character.aliases then
        let character' := { character with
          aliases := character.aliases.erase aliasName, updated := t }
        (saveMemoryFS fs
          { memory with characters := updateCharAt memory.characters key character' }
          t, true)
      else (fs, false)

-- ---------------------------------------------------------------------------
-- character-tracker.ts: detectSpeechLevel
-- ---------------------------------------------------------------------------

/-- Sentence delimiter class of `text.split(/[.!?]/)`. -/
def isSentenceDelim (c : Char) : Bool :=
  c = '.' ∨ c = '!' ∨ c = '?'

/-- String.prototype.split on a character class, at the character level:
pieces between delimiters, including empty pieces. -/
def splitDelims : List Char → List Char → List (List Char)
  | acc, [] => [acc.reverse]
  | acc, c :: rest =>
    if isSentenceDelim c then acc.reverse :: splitDelims [] rest
    else splitDelims (c :: acc) rest

/-- String.prototype.trim: strip whitespace from both ends. -/
def trimChars (l : List Char) : List Char :=
  ((l.dropWhile Char.isWhitespace).reverse.dropWhile Char.isWhitespace).reverse

/-- The sentence list of detectSpeechLevel:
`text.split(/[.!?]/).filter(s => s.trim())`, with each kept sentence
then used in trimmed form (`const t = s.trim()`). -/
def sentencesOf (text : String) : List (List Char) :=
  ((splitDelims [] text.toList).filter (fun s => trimChars s ≠ [])).map trimChars

/-- Suffix test corresponding to an anchored regex alternative `pat$`. -/
def endsW (pat : String) (t : List Char) : Bool :=
  pat.toList.isSuffixOf t

/-- 존댓말 (formal) family `/요$|습니다$|세요$|십시오$/`. -/
def formalTest (t : List Char) : Bool :=
  endsW "요" t ∨ endsW "습니다" t ∨ endsW "세요" t ∨ endsW "십시오" t

/-- 반말 (informal) family `/야$|아$|어$|지$|는데$/`. -/
def informalTest (t : List Char) : Bool :=
  endsW "야" t ∨ endsW "아" t ∨ endsW "어" t ∨ endsW "지" t ∨ endsW "는데" t

/-- 해체 (casual) family `/임$|음$|ㅋ|ㅎ$/` (`ㅋ` is unanchored: any
occurrence matches). -/
def casualTest (t : List Char) : Bool :=
  endsW "임" t ∨ endsW "음" t ∨ t.contains 'ㅋ' ∨ endsW "ㅎ" t

/-- Per-sentence count of formal matches. -/
def formalCount (text : String) : Nat :=
  (sentencesOf text).countP formalTest

/-- Per-sentence count of informal matches. -/
def informalCount (text : String) : Nat :=
  (sentencesOf text).countP informalTest

/-- Per-sentence count of casual matches. -/
def casualCount (text : String) : Nat :=
  (sentencesOf text).countP casualTest

/-- detectSpeechLevel: count per-sentence matches of the three pattern
families, then decide by the cascade
`formal > informal && formal > casual`, `casual > informal`,
`informal > 0`, else 혼합 (mixed). -/
def detectSpeechLevel (text : String) : SpeechLevel :=
  let formalCnt := formalCount text
  let informalCnt := informalCount text
  let casualCnt := casualCount text
  if formalCnt > informalCnt ∧ formalCnt > casualCnt then .formal
  else if casualCnt > informalCnt then .casual
  else if informalCnt > 0 then .informal
  else .mixed

-- ---------------------------------------------------------------------------
-- relationship-graph.ts
-- ---------------------------------------------------------------------------

/-- getRelationship(char1Name, char2Name): does its own loadMemory and a
direction-agnostic find. -/
def getRelationshipFS (fs : FS) (char1Name char2Name : String) :
    Option Relationship :=
  match loadMemory fs with
  | none => none
  | some memory => memory.relationships.find? (pairPred char1Name char2Name)

/-- Options bag of addRelationship. -/
structure AddRelationshipOptions where
  dynamic : Option String
  speechLevel : Option SpeechLevel
  notes : Option String
  deriving DecidableEq

/-- addRelationship(char1Name, char2Name, type, options): returns null
without touching the store when a relationship already exists for the
pair in either orientation; otherwise pushes a new relationship and
saves.  `newId` stands for `generateId('rel')`. -/
def addRelationship (fs : FS) (char1Name char2Name : String)
    (type : RelationshipType) (options : AddRelationshipOptions)
    (newId t : String) : FS × Option Relationship :=
  match loadMemory fs with
  | none => (fs, none)
  | some memory =>
    match memory.relationships.find? (pairPred char1Name char2Name) with
    | some _ => (fs, none)
    | none =>
      let relationship : Relationship :=
        { id := newId, fromName := char1Name, toName := char2Name,
          type := type, dynamic := options.dynamic.getD "stable",
          speechLevel := options.speechLevel, notes := options.notes,
          evolution := [], created := t }
      (saveMemoryFS fs
        { memory with relationships := memory.relationships ++ [relationship] }
        t, some relationship)

/-- Partial update bag of updateRelationship; the identity fields `id`,
`from`, `to`, `created` are excluded by its type
(`Partial<Omit<Relationship, 'id' | 'from' | 'to' | 'created'>>`). -/
structure RelUpdates where
  type : Option RelationshipType
  dynamic : Option String
  speechLevel : Option SpeechLevel
  evolution : Option (List RelationshipEvent)
  notes : Option String
  deriving DecidableEq

/-- Object.assign of the present update fields onto a relationship. -/
def applyRelUpdates (r : Relationship) (u : RelUpdates) : Relationship :=
  { r with
    type := u.type.getD r.type,
    dynamic := u.dynamic.getD r.dynamic,
    speechLevel := match u.speechLevel with
      | some s => some s
      | none => r.speechLevel,
    evolution := u.evolution.getD r.evolution,
    notes := match u.notes with
      | some s => some s
      | none => r.notes }

/-- updateRelationship(char1Name, char2Name, updates).  The source loads
the document (`memory`), then calls getRelationship — which performs its
own, second loadMemory and returns a relationship that belongs to that
second, independent parse.  Object.assign mutates the relationship of
the second parse, after which `saveMemory(memory)` writes the first
parse.  The pure rendering therefore returns the updated relationship
while the saved document is the unmodified first parse. -/
def updateRelationship (fs : FS) (char1Name char2Name : String)
    (updates : RelUpdates) (t : String) : FS × Option Relationship :=
  match loadMemory fs with
  | none => (fs, none)
  | some memory =>
    match getRelationshipFS fs char1Name char2Name with
    | none => (fs, none)
    | some relationship =>
      let relationship' := applyRelUpdates relationship updates
      (saveMemoryFS fs memory t, some relationship')

/-- addRelationshipEvent(char1Name, char2Name, change, catalyst, sceneId).
The source obtains the relationship from getRelationship's own load and
pushes the new event onto that parse, then performs a fresh loadMemory
and saves that fresh parse — which never contained the pushed event. -/
def addRelationshipEvent (fs : FS) (char1Name char2Name change catalyst : String)
    (sceneId : Option String) (t : String) : FS × Option RelationshipEvent :=
  match getRelationshipFS fs char1Name char2Name with
  | none => (fs, none)
  | some _relationship =>
    let event : RelationshipEvent :=
      { timestamp := t, change := change, catalyst := catalyst, sceneId := sceneId }
    match loadMemory fs with
    | none => (fs, none)
    | some memory => (saveMemoryFS fs memory t, some event)

-- ---------------------------------------------------------------------------
-- scene-manager.ts
-- ---------------------------------------------------------------------------

/-- Placeholder cut used only as the default of positional list reads;
under the validated permutation every read is in range, so the default
is never produced. -/
def dummyCut : Cut :=
  { order := 0, type := .dialogue, content := "", character := none,
    emotionTag := none }

/-- The renumbering loop `forEach((x, idx) => x.order = idx)` applied to
scenes, starting from index `i`. -/
def renumberScenesFrom : Nat → List Scene → List Scene
  | _, [] => []
  | i, s :: rest => { s with order := i } :: renumberScenesFrom (i + 1) rest

/-- Scene renumbering from index 0. -/
def renumberScenes (l : List Scene) : List Scene :=
  renumberScenesFrom 0 l

/-- The renumbering loop `forEach((cut, idx) => cut.order = idx)` applied
to cuts, starting from index `i`. -/
def renumberCutsFrom : Nat → List Cut → List Cut
  | _, [] => []
  | i, c :: rest => { c with order := i } :: renumberCutsFrom (i + 1) rest

/-- Cut renumbering from index 0. -/
def renumberCuts (l : List Cut) : List Cut :=
  renumberCutsFrom 0 l

/-- In-place mutation of the first scene with a given id, rendered as
replacement of the first matching list entry. -/
def replaceFirstScene : List Scene → String → Scene → List Scene
  | [], _, _ => []
  | s :: rest, sceneId, s' =>
    if s.id = sceneId then s' :: rest
    else s :: replaceFirstScene rest sceneId s'

/-- Options bag of addScene. -/
structure AddSceneOptions where
  chapter : Option String
  characters : Option (List String)
  emotionTags : Option (List String)
  narrationTone : Option String
  notes : Option String
  deriving DecidableEq

/-- addScene(title, options): appends a scene with `order` equal to the
current scene count and saves.  With a missing store the dereference of
`memory.scenes` throws, the catch returns null and nothing is written. -/
def addScene (fs : FS) (title : String) (options : AddSceneOptions)
    (newId t : String) : FS × Option Scene :=
  match loadMemory fs with
  | none => (fs, none)
  | some memory =>
    let newScene : Scene :=
      { id := newId, title := title, chapter := options.chapter,
        characters := options.characters.getD [],
        emotionTags := options.emotionTags.getD [], cuts := [],
        narrationTone := some (options.narrationTone.getD ""),
        notes := some (options.notes.getD ""),
        order := memory.scenes.length, created := t }
    (saveMemoryFS fs { memory with scenes := memory.scenes ++ [newScene] } t,
      some newScene)

/-- removeScene(sceneId): splices the scene out, renumbers every
remaining scene's `order` to its index, and saves. -/
def removeScene (fs : FS) (sceneId t : String) : FS × Bool :=
  match loadMemory fs with
  | none => (fs, false)
  | some memory =>
    match memory.scenes.findIdx? (fun s => s.id = sceneId) with
    | none => (fs, false)
    | some index =>
      (saveMemoryFS fs
        { memory with scenes := renumberScenes (memory.scenes.eraseIdx index) }
        t, true)

/-- The scene lookup map of reorderScenes:
`new Map(memory.scenes.map(s => [s.id, s]))` — on duplicate ids the last
entry wins. -/
def sceneMapGet (scenes : List Scene) (id : String) : Option Scene :=
  scenes.foldl (fun acc s => if s.id = id then some s else acc) none

/-- reorderScenes(sceneIds): fails on a length mismatch or an unknown id;
otherwise rebuilds the scene list in the given id order and renumbers. -/
def reorderScenes (fs : FS) (sceneIds : List String) (t : String) : FS × Bool :=
  match loadMemory fs with
  | none => (fs, false)
  | some memory =>
    if sceneIds.length ≠ memory.scenes.length then (fs, false)
    else if ¬ sceneIds.all (fun id => (sceneMapGet memory.scenes id).isSome) then
      (fs, false)
    else
      (saveMemoryFS fs
        { memory with scenes :=
            renumberScenes (sceneIds.filterMap (sceneMapGet memory.scenes)) }
        t, true)

/-- Input bag of addCut. -/
structure AddCutInput where
  type : CutType
  content : String
  character : Option String
  emotionTag : Option String
  deriving DecidableEq

/-- addCut(sceneId, cut): appends a cut with `order` equal to the scene's
current cut count and saves. -/
def addCut (fs : FS) (sceneId : String) (cut : AddCutInput) (t : String) :
    FS × Bool :=
  match loadMemory fs with
  | none => (fs, false)
  | some memory =>
    match findSceneById memory sceneId with
    | none => (fs, false)
    | some scene =>
      let newCut : Cut :=
        { order := scene.cuts.length, type := cut.type, content := cut.content,
          character := cut.character, emotionTag := cut.emotionTag }
      let scene' := { scene with cuts := scene.cuts ++ [newCut] }
      (saveMemoryFS fs
        { memory with scenes := replaceFirstScene memory.scenes sceneId scene' }
        t, true)

/-- removeCut(sceneId, cutOrder): splices out the first cut whose `order`
equals `cutOrder`, renumbers the scene's remaining cuts, and saves. -/
def removeCut (fs : FS) (sceneId : String) (cutOrder : Nat) (t : String) :
    FS × Bool :=
  match loadMemory fs with
  | none => (fs, false)
  | some memory =>
    match findSceneById memory sceneId with
    | none => (fs, false)
    | some scene =>
      match scene.cuts.findIdx? (fun c => c.order = cutOrder) with
      | none => (fs, false)
      | some index =>
        let scene' := { scene with cuts := renumberCuts (scene.cuts.eraseIdx index) }
        (saveMemoryFS fs
          { memory with scenes := replaceFirstScene memory.scenes sceneId scene' }
          t, true)

/-- reorderCuts(sceneId, newOrder): fails fast when the array length
mismatches the cut count or when the ascending sort of `newOrder` is not
exactly the index range (the loop `sortedOrder[i] !== i`); otherwise cut
`i` of the new list is the old cut at position `newOrder[i]`, renumbered
to `i`.  Entries are JS numbers, modelled as Int. -/
def reorderCuts (fs : FS) (sceneId : String) (newOrder : List Int)
    (t : String) : FS × Bool :=
  match loadMemory fs with
  | none => (fs, false)
  | some memory =>
    match findSceneById memory sceneId with
    | none => (fs, false)
    | some scene =>
      if newOrder.length ≠ scene.cuts.length then (fs, false)
      else
        let sortedOrder := List.insertionSort (· ≤ ·) newOrder
        if sortedOrder ≠ (List.range newOrder.length).map Int.ofNat then
          (fs, false)
        else
          let reorderedCuts :=
            newOrder.map (fun oldIdx => scene.cuts.getD oldIdx.toNat dummyCut)
          let scene' := { scene with cuts := renumberCuts reorderedCuts }
          (saveMemoryFS fs
            { memory with scenes := replaceFirstScene memory.scenes sceneId scene' }
            t, true)

/-- addEmotionTag(sceneId, tag): duplicate tags are reported as success
without mutating or saving; otherwise the tag is pushed and saved. -/
def addEmotionTag (fs : FS) (sceneId tag t : String) : FS × Bool :=
  match loadMemory fs with
  | none => (fs, false)
  | some memory =>
    match findSceneById memory sceneId with
    | none => (fs, false)
    | some scene =>
      if tag ∈ scene.emotionTags then (fs, true)
      else
        let scene' := { scene with emotionTags := scene.emotionTags ++ [tag] }
        (saveMemoryFS fs
          { memory with scenes := replaceFirstScene memory.scenes sceneId scene' }
          t, true)

/-- removeEmotionTag(sceneId, tag): a missing tag is reported as success
without mutating or saving; otherwise the tag is spliced out and saved. -/
def removeEmotionTag (fs : FS) (sceneId tag t : String) : FS × Bool :=
  match loadMemory fs with
  | none => (fs, false)
  | some memory =>
    match findSceneById memory sceneId with
    | none => (fs, false)
    | some scene =>
      if tag ∈ scene.emotionTags then
        let scene' := { scene with emotionTags := scene.emotionTags.erase tag }
        (saveMemoryFS fs
          { memory with scenes := replaceFirstScene memory.scenes sceneId scene' }
          t, true)
      else (fs, true)

/-- initMemory's fresh document (the on-disk side effects and the
initial save are immaterial to the claims; this is the document value). -/
def initMemoryDoc (projectName genre timestamp : String) : WriterMemory :=
  { version := "1.0",
    project := { name := projectName, genre := genre,
                 created := timestamp, updated := timestamp },
    characters := [],
    world := { name := "", era := "", atmosphere := "", rules := [],
               locations := [], culturalNotes := [], notes := "" },
    relationships := [], scenes := [], themes := [],
    synopsis := { protagonistAttitude := "", coreRelationships := "",
                  emotionalTheme := "", genreVsRealEmotion := "",
                  endingAftertaste := "", lastGenerated := none } }

-- ---------------------------------------------------------------------------
-- Derived notions used by the stated properties
-- ---------------------------------------------------------------------------

/-- Dense zero-based scene ordering: the multiset of `order` values over
all scenes is exactly 0..n-1. -/
def scenesDense (memory : WriterMemory) : Prop :=
  List.Perm (memory.scenes.map Scene.order) (List.range memory.scenes.length)

/-- Dense zero-based cut ordering within one scene. -/
def cutsDense (scene : Scene) : Prop :=
  List.Perm (scene.cuts.map Cut.order) (List.range scene.cuts.length)

/-- Dense scene ordering is decidable, for evaluation on concrete stores. -/
instance (m : WriterMemory) : Decidable (scenesDense m) :=
  inferInstanceAs (Decidable
    (List.Perm (m.scenes.map Scene.order) (List.range m.scenes.length)))

/-- Dense cut ordering is decidable, for evaluation on concrete scenes. -/
instance (s : Scene) : Decidable (cutsDense s) :=
  inferInstanceAs (Decidable
    (List.Perm (s.cuts.map Cut.order) (List.range s.cuts.length)))

/-- Iterated saves: fold saveMemoryFS over a list of (document, timestamp)
pairs. -/
def runSaves (fs : FS) (saves : List (WriterMemory × String)) : FS :=
  saves.foldl (fun acc p => saveMemoryFS acc p.1 p.2) fs

-- ---------------------------------------------------------------------------
-- Helper lemmas
-- ---------------------------------------------------------------------------

/-- find? only depends on the pointwise behaviour of its predicate. -/
theorem find?_ext {α : Type} (p q : α → Bool) (h : ∀ x, p x = q x) :
    ∀ l : List α, l.find? p = l.find? q
  | [] => rfl
  | x :: xs => by
    simp only [List.find?]
    rw [h x]
    cases q x
    · exact find?_ext p q h xs
    · rfl

/-- The direction-agnostic pair test is symmetric in its two names. -/
theorem pairPred_symm (a b : String) (r : Relationship) :
    pairPred a b r = pairPred b a r := by
  simp only [pairPred]
  exact decide_eq_decide.mpr or_comm

/-- A found scene satisfies the find? predicate: its id is the searched id. -/
theorem find?_scene_id {l : List Scene} {sid : String} {s : Scene}
    (h : l.find? (fun s => s.id = sid) = some s) : s.id = sid := by
  have := List.find?_some h
  exact of_decide_eq_true this

/-- Replacing the first scene with a given id preserves its position as
the first find? hit. -/
theorem find?_replaceFirstScene {l : List Scene} {sid : String} {s s' : Scene}
    (hid : s'.id = sid) (h : l.find? (fun s => s.id = sid) = some s) :
    (replaceFirstScene l sid s').find? (fun s => s.id = sid) = some s' := by
  induction l with
  | nil => simp [List.find?] at h
  | cons x rest ih =>
    by_cases hx : x.id = sid
    · simp [replaceFirstScene, hx, List.find?, hid]
    · have hd : decide (x.id = sid) = false := decide_eq_false hx
      simp only [replaceFirstScene, if_neg hx]
      simp only [List.find?, hd] at h ⊢
      exact ih h

/-- Renumbering scenes writes exactly the index range into `order`. -/
theorem renumberScenesFrom_map_order (l : List Scene) :
    ∀ i : Nat, (renumberScenesFrom i l).map Scene.order = List.range' i l.length := by
  induction l with
  | nil => intro i; rfl
  | cons s rest ih =>
    intro i
    simp only [renumberScenesFrom, List.map_cons, List.length_cons, List.range',
      ih (i + 1)]

/-- Renumbering scenes from 0 yields orders 0..n-1 in place. -/
theorem renumberScenes_map_order (l : List Scene) :
    (renumberScenes l).map Scene.order = List.range l.length := by
  rw [renumberScenes, renumberScenesFrom_map_order, List.range_eq_range']

/-- Renumbering scenes preserves length. -/
theorem renumberScenes_length (l : List Scene) :
    (renumberScenes l).length = l.length := by
  have := congrArg List.length (renumberScenes_map_order l)
  simpa using this

/-- Renumbering cuts writes exactly the index range into `order`. -/
theorem renumberCutsFrom_map_order (l : List Cut) :
    ∀ i : Nat, (renumberCutsFrom i l).map Cut.order = List.range' i l.length := by
  induction l with
  | nil => intro i; rfl
  | cons c rest ih =>
    intro i
    simp only [renumberCutsFrom, List.map_cons, List.length_cons, List.range',
      ih (i + 1)]

/-- Renumbering cuts from 0 yields orders 0..n-1 in place. -/
theorem renumberCuts_map_order (l : List Cut) :
    (renumberCuts l).map Cut.order = List.range l.length := by
  rw [renumberCuts, renumberCutsFrom_map_order, List.range_eq_range']

/-- Renumbering cuts preserves length. -/
theorem renumberCuts_length (l : List Cut) :
    (renumberCuts l).length = l.length := by
  have := congrArg List.length (renumberCuts_map_order l)
  simpa using this

/-- A renumbered scene or cut list is dense. -/
theorem cutsDense_renumber (scene : Scene) (l : List Cut)
    (h : scene.cuts = renumberCuts l) : cutsDense scene := by
  unfold cutsDense
  rw [h, renumberCuts_map_order, renumberCuts_length]

/-- The prune loop leaves a directory of at most MAX_BACKUPS files alone. -/
theorem pruneLoop_of_le (l : List String) (h : l.length ≤ MAX_BACKUPS) :
    pruneLoop l = l := by
  unfold pruneLoop
  rw [if_neg (by omega)]

/-- The prune loop deletes exactly the smallest name when the directory
holds MAX_BACKUPS + 1 files. -/
theorem pruneLoop_of_eq_succ :
    ∀ l : List String, l.length = MAX_BACKUPS + 1 → pruneLoop l = l.tail
  | [], h => by simp [MAX_BACKUPS] at h
  | x :: rest, h => by
    unfold pruneLoop
    rw [if_pos (by simp only [List.length_cons] at h ⊢; omega)]
    exact pruneLoop_of_le rest (by simp only [List.length_cons] at h; omega)

/-- Ordered insertion of an element strictly above everything in the list
appends it at the end. -/
theorem orderedInsert_append_last (a : String) :
    ∀ l : List String, (∀ b ∈ l, b < a) →
      List.orderedInsert (· ≤ ·) a l = l ++ [a]
  | [], _ => rfl
  | b :: rest, h => by
    rw [List.orderedInsert, if_neg (not_le.mpr (h b (List.mem_cons_self b rest)))]
    rw [orderedInsert_append_last a rest (fun x hx => h x (List.mem_cons_of_mem b hx))]
    rfl

/-- Sorting a sorted directory with one new strictly-greatest name prepended
appends that name at the end. -/
theorem insertionSort_cons_max (a : String) (l : List String)
    (hs : l.Sorted (· ≤ ·)) (h : ∀ b ∈ l, b < a) :
    List.insertionSort (· ≤ ·) (a :: l) = l ++ [a] := by
  rw [List.insertionSort, hs.insertionSort_eq]
  exact orderedInsert_append_last a l h

/-- One backup step on a strictly sorted directory, with a strictly
greatest new name, is: append the name, then prune at the front. -/
theorem backupStep_sorted (dir : List String) (a : String)
    (hs : dir.Sorted (· < ·)) (h : ∀ b ∈ dir, b < a) :
    backupStep dir a = pruneLoop (dir ++ [a]) := by
  have hnotmem : a ∉ dir := fun ha => lt_irrefl a (h a ha)
  unfold backupStep insertIfNew
  rw [if_neg hnotmem]
  exact congrArg pruneLoop
    (insertionSort_cons_max a dir (hs.imp le_of_lt) h)

/-- Folding backup steps over a strictly ascending list of names starting
from an empty directory retains exactly the greatest MAX_BACKUPS names
(all of them while they fit). -/
theorem foldl_backupStep_sorted (ns : List String) (h : ns.Sorted (· < ·)) :
    ns.foldl backupStep [] = ns.drop (ns.length - MAX_BACKUPS) := by
  induction ns using List.reverseRecOn with
  | nil => rfl
  | append_singleton ns a ih =>
    have hsplit := List.pairwise_append.mp h
    have hns : ns.Sorted (· < ·) := hsplit.1
    have hlt : ∀ b ∈ ns, b < a := fun b hb =>
      hsplit.2.2 b hb a (List.mem_singleton_self a)
    have hacc : ns.foldl backupStep [] = ns.drop (ns.length - MAX_BACKUPS) :=
      ih hns
    rw [List.foldl_append, hacc]
    simp only [List.foldl_cons, List.foldl_nil]
    have hsub : List.Sublist (ns.drop (ns.length - MAX_BACKUPS)) ns :=
      List.drop_sublist _ _
    have hacc_sorted : (ns.drop (ns.length - MAX_BACKUPS)).Sorted (· < ·) :=
      hns.sublist hsub
    have hacc_lt : ∀ b ∈ ns.drop (ns.length - MAX_BACKUPS), b < a := fun b hb =>
      hlt b (hsub.mem hb)
    rw [backupStep_sorted _ a hacc_sorted hacc_lt]
    have hdl : (ns.drop (ns.length - MAX_BACKUPS)).length =
        ns.length - (ns.length - MAX_BACKUPS) := List.length_drop _ _
    simp only [List.length_append, List.length_singleton]
    by_cases hle : ns.length < MAX_BACKUPS
    · have h0 : ns.length - MAX_BACKUPS = 0 := Nat.sub_eq_zero_of_le (le_of_lt hle)
      have h0' : ns.length + 1 - MAX_BACKUPS = 0 := Nat.sub_eq_zero_of_le hle
      have hlen2 : (ns ++ [a]).length ≤ MAX_BACKUPS := by
        simp only [List.length_append, List.length_singleton]; omega
      rw [h0, List.drop_zero, pruneLoop_of_le _ hlen2, h0', List.drop_zero]
    · have h20 : MAX_BACKUPS ≤ ns.length := le_of_not_lt hle
      have hlen : (ns.drop (ns.length - MAX_BACKUPS) ++ [a]).length =
          MAX_BACKUPS + 1 := by
        simp only [List.length_append, List.length_singleton, hdl]
        simp only [MAX_BACKUPS] at *
        omega
      rw [pruneLoop_of_eq_succ _ hlen]
      have h1le : 1 ≤ (ns.drop (ns.length - MAX_BACKUPS)).length := by
        rw [hdl]
        simp only [MAX_BACKUPS] at *
        omega
      have hk1 : ns.length + 1 - MAX_BACKUPS ≤ ns.length := by
        simp only [MAX_BACKUPS] at *
        omega
      rw [← List.drop_one, List.drop_append_of_le_length h1le,
        List.drop_drop, List.drop_append_of_le_length hk1]
      congr 2
      simp only [MAX_BACKUPS] at *
      omega

/-- Iterated saves on a present store evolve the backup directory by the
pure backup fold, and keep the store present. -/
theorem runSaves_backups :
    ∀ (saves : List (WriterMemory × String)) (fs : FS), fs.disk.isSome →
      (runSaves fs saves).backups =
        (saves.map (fun p => backupFileName p.2)).foldl backupStep fs.backups ∧
      (runSaves fs saves).disk.isSome
  | [], fs, h => ⟨rfl, h⟩
  | (m, t) :: rest, fs, h => by
    obtain ⟨d, hd⟩ := Option.isSome_iff_exists.mp h
    have hstep : (saveMemoryFS fs m t).backups =
        backupStep fs.backups (backupFileName t) := by
      unfold saveMemoryFS
      rw [hd]
    have hnext := runSaves_backups rest (saveMemoryFS fs m t) rfl
    refine ⟨?_, ?_⟩
    · simpa [runSaves, List.foldl_cons, hstep] using hnext.1
    · exact hnext.2

/-- The saved disk content is the argument document with `project.updated`
refreshed, whatever the previous state was. -/
theorem saveMemoryFS_disk (fs : FS) (memory : WriterMemory) (t : String) :
    (saveMemoryFS fs memory t).disk = some (refreshUpdated memory t) := rfl

/-- getD of a mapped list, inside the range, is the function applied to
getD of the original list (any defaults). -/
theorem getD_map_of_lt {α β : Type} (f : α → β) :
    ∀ (l : List α) (i : Nat) (d : α) (d' : β), i < l.length →
      (l.map f).getD i d' = f (l.getD i d)
  | [], i, _, _, h => by simp at h
  | x :: xs, 0, d, d', _ => rfl
  | x :: xs, i + 1, d, d', h =>
    getD_map_of_lt f xs i d d' (by simpa using h)

/-- getD inside the range is a member of the list. -/
theorem getD_mem_of_lt {α : Type} :
    ∀ (l : List α) (i : Nat) (d : α), i < l.length → l.getD i d ∈ l
  | [], i, _, h => by simp at h
  | x :: xs, 0, d, _ => List.mem_cons_self x xs
  | x :: xs, i + 1, d, h =>
    List.mem_cons_of_mem x (getD_mem_of_lt xs i d (by simpa using h))

/-- Positional description of cut renumbering. -/
theorem renumberCutsFrom_getD :
    ∀ (l : List Cut) (j i : Nat), i < l.length →
      (renumberCutsFrom j l).getD i dummyCut =
        { l.getD i dummyCut with order := j + i }
  | [], j, i, h => by simp at h
  | c :: rest, j, 0, _ => by simp [renumberCutsFrom]
  | c :: rest, j, i + 1, h => by
    simp only [renumberCutsFrom, List.getD_cons_succ]
    rw [renumberCutsFrom_getD rest (j + 1) i (by simpa using h)]
    rw [show j + 1 + i = j + (i + 1) by omega]

/-- Appending at the tail when the first part has no hit continues the
search in the appended part. -/
theorem find?_append_of_none {α : Type} {p : α → Bool} :
    ∀ {l₁ : List α} (l₂ : List α), l₁.find? p = none →
      (l₁ ++ l₂).find? p = l₂.find? p
  | [], l₂, _ => rfl
  | x :: xs, l₂, h => by
    simp only [List.find?] at h ⊢
    cases hx : p x with
    | true => rw [hx] at h; exact absurd h (by simp)
    | false =>
      rw [hx] at h
      exact find?_append_of_none l₂ h

/-- A key/id mismatch of a stored character entry appears in
validateMemory's error list. -/
theorem keyMismatch_mem_validate {m : WriterMemory} {k : String} {c : Character}
    (hmem : (k, c) ∈ m.characters) (hne : c.id ≠ k) :
    keyMismatchError k c.id ∈ (validateMemory m).errors := by
  have hchar : keyMismatchError k c.id ∈ characterErrors m.characters := by
    unfold characterErrors
    refine List.mem_flatMap.mpr ⟨(k, c), hmem, ?_⟩
    rw [if_pos hne]
    exact List.mem_append_left _ (List.mem_singleton_self _)
  unfold validateMemory
  exact List.mem_append_left _ (List.mem_append_left _ (List.mem_append_right _ hchar))

/-- Any member of the error list forces valid = false. -/
theorem validateMemory_valid_false {m : WriterMemory} {e : String}
    (h : e ∈ (validateMemory m).errors) : (validateMemory m).valid = false := by
  have hne : (validateMemory m).errors ≠ [] := List.ne_nil_of_mem h
  have hlen : ¬ (validateMemory m).errors.length = 0 := by
    intro h0
    exact hne (List.length_eq_zero.mp h0)
  unfold validateMemory at hlen ⊢
  exact decide_eq_false hlen

/-- Appending a character entry whose id differs from its key makes the
document fail validation with the key-mismatch error. -/
theorem validate_append_mismatch (m : WriterMemory) (name : String)
    (ch : Character) (t : String) (hne : ch.id ≠ name) :
    keyMismatchError name ch.id ∈
      (validateMemory (refreshUpdated
        { m with characters := m.characters ++ [(name, ch)] } t)).errors ∧
    (validateMemory (refreshUpdated
        { m with characters := m.characters ++ [(name, ch)] } t)).valid = false := by
  have hmem : (name, ch) ∈ (refreshUpdated
      { m with characters := m.characters ++ [(name, ch)] } t).characters :=
    List.mem_append_right _ (List.mem_singleton_self _)
  have h1 := keyMismatch_mem_validate hmem hne
  exact ⟨h1, validateMemory_valid_false h1⟩

/-- Appending one scene whose order is the previous count preserves dense
scene ordering. -/
theorem scenesDense_append {l : List Scene} (s : Scene)
    (h : List.Perm (l.map Scene.order) (List.range l.length))
    (hs : s.order = l.length) :
    List.Perm ((l ++ [s]).map Scene.order) (List.range (l ++ [s]).length) := by
  rw [List.map_append, List.length_append]
  simp only [List.map_cons, List.map_nil, List.length_singleton]
  rw [hs, List.range_succ]
  exact h.append_right [l.length]

/-- Appending one cut whose order is the previous count preserves dense
cut ordering. -/
theorem cutsDense_append (s : Scene) (c : Cut) (h : cutsDense s)
    (hc : c.order = s.cuts.length) :
    cutsDense { s with cuts := s.cuts ++ [c] } := by
  unfold cutsDense at h ⊢
  simp only [List.map_append, List.length_append, List.map_cons, List.map_nil,
    List.length_singleton]
  rw [hc, List.range_succ]
  exact h.append_right [s.cuts.length]

-- ---------------------------------------------------------------------------
-- Concrete fixtures shared by the concrete instances below
-- ---------------------------------------------------------------------------

/-- Empty options bag for addCharacter. -/
def noCharOptions : AddCharacterOptions :=
  { arc := none, tone := none, speechLevel := none, attitude := none,
    keywords := none, notes := none }

/-- Empty options bag for addRelationship. -/
def noRelOptions : AddRelationshipOptions :=
  { dynamic := none, speechLevel := none, notes := none }

/-- Empty options bag for addScene. -/
def noSceneOptions : AddSceneOptions :=
  { chapter := none, characters := none, emotionTags := none,
    narrationTone := none, notes := none }

/-- Fresh concrete base document. -/
def baseDoc : WriterMemory := initMemoryDoc "이별의 온도" "멜로" "t0"

/-- Concrete relationship between characters A and B. -/
def relAB : Relationship :=
  { id := "rel_1", fromName := "A", toName := "B", type := .friendship,
    dynamic := "stable", speechLevel := none, evolution := [], notes := none,
    created := "t0" }

/-- Concrete character stored under key A with one alias. -/
def charA : Character :=
  { id := "char_A", name := "A", aliases := ["nick"], arc := "", tone := "",
    speechLevel := .informal, keywords := [], attitude := "", timeline := [],
    notes := "", created := "t0", updated := "t0", taboo := none,
    emotional_baseline := none, triggers := none }

/-- Concrete dialogue cut constructor. -/
def mkCut (o : Nat) (content : String) : Cut :=
  { order := o, type := .dialogue, content := content, character := none,
    emotionTag := none }

/-- Concrete scene 0 with three cuts and one emotion tag. -/
def sceneS0 : Scene :=
  { id := "scene_0", title := "첫 만남", chapter := none, order := 0,
    characters := ["A"], emotionTags := ["긴장"],
    cuts := [mkCut 0 "c0", mkCut 1 "c1", mkCut 2 "c2"],
    narrationTone := none, notes := none, created := "t0" }

/-- Concrete cutless scene 1. -/
def sceneS1 : Scene :=
  { id := "scene_1", title := "재회", chapter := none, order := 1,
    characters := [], emotionTags := [], cuts := [],
    narrationTone := none, notes := none, created := "t0" }

/-- Concrete document with one character, one relationship, two scenes. -/
def docScenes : WriterMemory :=
  { baseDoc with
    characters := [("A", charA)]
    relationships := [relAB]
    scenes := [sceneS0, sceneS1] }

/-- Concrete store holding only the relationship document. -/
def fsRel : FS := ⟨some { baseDoc with relationships := [relAB] }, []⟩

/-- Concrete store holding only the character document. -/
def fsChar : FS := ⟨some { baseDoc with characters := [("A", charA)] }, []⟩

/-- Concrete store holding the full scene document. -/
def fsS : FS := ⟨some docScenes, []⟩

/-- Concrete store holding the fresh base document. -/
def fsBase : FS := ⟨some baseDoc, []⟩

-- ---------------------------------------------------------------------------
-- Claims
-- ---------------------------------------------------------------------------

/-- C1: for every document D written by saveMemory, a subsequent
loadMemory returns a document field-for-field equal to D as saved, with
project.updated refreshed by the save: load after save reproduces the
saved document's semantic content exactly. -/
theorem c1_save_load_round_trip (fs : FS) (D : WriterMemory) (t : String) :
    loadMemory (saveMemoryFS fs D t) = some (refreshUpdated D t) ∧
    (refreshUpdated D t).version = D.version ∧
    (refreshUpdated D t).project.name = D.project.name ∧
    (refreshUpdated D t).project.genre = D.project.genre ∧
    (refreshUpdated D t).project.created = D.project.created ∧
    (refreshUpdated D t).project.updated = t ∧
    (refreshUpdated D t).characters = D.characters ∧
    (refreshUpdated D t).world = D.world ∧
    (refreshUpdated D t).relationships = D.relationships ∧
    (refreshUpdated D t).scenes = D.scenes ∧
    (refreshUpdated D t).themes = D.themes ∧
    (refreshUpdated D t).synopsis = D.synopsis :=
  ⟨rfl, rfl, rfl, rfl, rfl, rfl, rfl, rfl, rfl, rfl, rfl, rfl⟩

/-- C2: evaluation of updateRelationship at a concrete failing input.  On
a store holding the relationship A–B with dynamic "stable", updating the
unordered pair (A,B) with dynamic "적대적 긴장" returns the merged
relationship (non-null), yet the document on disk still carries the old
dynamic "stable" (only project.updated was refreshed): the merge is
applied to the copy loaded inside getRelationship while saveMemory
writes the separately loaded, unmodified copy. -/
theorem c2_update_relationship_not_persisted :
    (updateRelationship fsRel "A" "B"
        { type := none, dynamic := some "적대적 긴장", speechLevel := none,
          evolution := none, notes := none } "t1").2 =
      some { relAB with dynamic := "적대적 긴장" } ∧
    (updateRelationship fsRel "A" "B"
        { type := none, dynamic := some "적대적 긴장", speechLevel := none,
          evolution := none, notes := none } "t1").1.disk =
      some (refreshUpdated { baseDoc with relationships := [relAB] } "t1") ∧
    ((updateRelationship fsRel "A" "B"
        { type := none, dynamic := some "적대적 긴장", speechLevel := none,
          evolution := none, notes := none } "t1").1.disk.map
      (fun m => m.relationships.map Relationship.dynamic)) = some ["stable"] := by
  refine ⟨?_, ?_, ?_⟩ <;> decide

/-- C3: evaluation of addRelationshipEvent at a concrete failing input.
On a store holding the relationship A–B with an empty evolution
timeline, adding an event returns the new event (non-null), yet the
document on disk still has an empty evolution timeline: the event is
pushed onto getRelationship's loaded copy, after which a fresh
loadMemory is saved. -/
theorem c3_relationship_event_not_persisted :
    (addRelationshipEvent fsRel "A" "B" "첫 다툼" "오해" none "t1").2 =
      some { timestamp := "t1", change := "첫 다툼", catalyst := "오해",
             sceneId := none } ∧
    (addRelationshipEvent fsRel "A" "B" "첫 다툼" "오해" none "t1").1.disk =
      some (refreshUpdated { baseDoc with relationships := [relAB] } "t1") ∧
    ((addRelationshipEvent fsRel "A" "B" "첫 다툼" "오해" none "t1").1.disk.map
      (fun m => m.relationships.map Relationship.evolution)) = some [[]] := by
  refine ⟨?_, ?_, ?_⟩ <;> decide

/-- C5: at most one relationship per unordered pair.  When a relationship
with endpoints a,b (in either orientation) is already stored,
addRelationship(a,b,...) and addRelationship(b,a,...) both return null
and leave the store untouched, and getRelationship(a,b) and
getRelationship(b,a) return the same stored record. -/
theorem c5_relationship_pair_unique (fs : FS) (m : WriterMemory)
    (a b : String) (r : Relationship) (type : RelationshipType)
    (options : AddRelationshipOptions) (newId t : String)
    (hdisk : fs.disk = some m) (hr : r ∈ m.relationships)
    (hp : pairPred a b r = true) :
    addRelationship fs a b type options newId t = (fs, none) ∧
    addRelationship fs b a type options newId t = (fs, none) ∧
    getRelationshipFS fs a b = getRelationshipFS fs b a := by
  have hswap : ∀ rels : List Relationship,
      rels.find? (pairPred b a) = rels.find? (pairPred a b) :=
    find?_ext (pairPred b a) (pairPred a b)
      (fun r => (pairPred_symm a b r).symm)
  have hne : m.relationships.find? (pairPred a b) ≠ none := by
    intro hn
    exact absurd hp (by simpa using List.find?_eq_none.mp hn r hr)
  obtain ⟨x, hx⟩ := Option.ne_none_iff_exists'.mp hne
  refine ⟨?_, ?_, ?_⟩
  · simp only [addRelationship, loadMemory, hdisk, hx]
  · simp only [addRelationship, loadMemory, hdisk, hswap, hx]
  · simp only [getRelationshipFS, loadMemory, hdisk, hswap]

/-- C5 witness: the concrete store fsRel already holds the relationship
A–B, so adding (A,B) or (B,A) again fails without touching the store and
the two lookup orientations agree. -/
theorem c5_relationship_pair_unique_witness :
    addRelationship fsRel "A" "B" .romantic noRelOptions "rel_2" "t1" =
      (fsRel, none) ∧
    addRelationship fsRel "B" "A" .romantic noRelOptions "rel_2" "t1" =
      (fsRel, none) ∧
    getRelationshipFS fsRel "A" "B" = getRelationshipFS fsRel "B" "A" :=
  c5_relationship_pair_unique fsRel { baseDoc with relationships := [relAB] }
    "A" "B" relAB .romantic noRelOptions "rel_2" "t1" rfl (by decide) (by decide)

/-- C6 counterexample: removing an absent alias is NOT reported as
success.  On the concrete store holding character A (aliases ["nick"]),
removeAlias(A, "유령별명") leaves the store unchanged but returns false,
refuting the claim that removing an absent alias reports success. -/
theorem c6_remove_absent_alias_reports_failure :
    (removeAlias fsChar "A" "유령별명" "t1").2 = false ∧
    (removeAlias fsChar "A" "유령별명" "t1").1 = fsChar := by
  refine ⟨?_, ?_⟩ <;> decide

/-- C6 (amended): duplicate addAlias and duplicate addEmotionTag are
no-op successes, and removing an absent emotion tag is a no-op success;
but removing an absent alias is a no-op failure: removeAlias leaves the
store unchanged and returns false. -/
theorem c6_idempotent_tag_alias_amended :
    (∀ fs m cname al t k ch, fs.disk = some m →
      findCharacterEntry m cname = some (k, ch) → al ∈ ch.aliases →
      addAlias fs cname al t = (fs, true)) ∧
    (∀ fs m cname al t k ch, fs.disk = some m →
      findCharacterEntry m cname = some (k, ch) → al ∉ ch.aliases →
      removeAlias fs cname al t = (fs, false)) ∧
    (∀ fs m sid tag t s, fs.disk = some m →
      findSceneById m sid = some s → tag ∈ s.emotionTags →
      addEmotionTag fs sid tag t = (fs, true)) ∧
    (∀ fs m sid tag t s, fs.disk = some m →
      findSceneById m sid = some s → tag ∉ s.emotionTags →
      removeEmotionTag fs sid tag t = (fs, true)) := by
  refine ⟨?_, ?_, ?_, ?_⟩
  · intro fs m cname al t k ch hdisk hentry hal
    simp only [addAlias, loadMemory, hdisk, hentry]
    rw [if_pos hal]
  · intro fs m cname al t k ch hdisk hentry hal
    simp only [removeAlias, loadMemory, hdisk, hentry]
    rw [if_neg hal]
  · intro fs m sid tag t s hdisk hscene htag
    simp only [addEmotionTag, loadMemory, hdisk, hscene]
    rw [if_pos htag]
  · intro fs m sid tag t s hdisk hscene htag
    simp only [removeEmotionTag, loadMemory, hdisk, hscene]
    rw [if_neg htag]

/-- C6 witness: concrete instances of all four amended conjuncts on the
concrete stores. -/
theorem c6_idempotent_tag_alias_witness :
    addAlias fsChar "A" "nick" "t1" = (fsChar, true) ∧
    removeAlias fsChar "A" "유령별명2" "t1" = (fsChar, false) ∧
    addEmotionTag fsS "scene_0" "긴장" "t1" = (fsS, true) ∧
    removeEmotionTag fsS "scene_0" "없는태그" "t1" = (fsS, true) :=
  ⟨c6_idempotent_tag_alias_amended.1 fsChar
      { baseDoc with characters := [("A", charA)] } "A" "nick" "t1" "A" charA
      rfl (by decide) (by decide),
   c6_idempotent_tag_alias_amended.2.1 fsChar
      { baseDoc with characters := [("A", charA)] } "A" "유령별명2" "t1" "A" charA
      rfl (by decide) (by decide),
   c6_idempotent_tag_alias_amended.2.2.1 fsS docScenes "scene_0" "긴장" "t1"
      sceneS0 rfl (by decide) (by decide),
   c6_idempotent_tag_alias_amended.2.2.2 fsS docScenes "scene_0" "없는태그" "t1"
      sceneS0 rfl (by decide) (by decide)⟩

/-- C8 counterexample: on "이상해요. 좋은 사람임." the formal and casual
counts tie at the lead (1 each, informal 0); the claim predicts the
mixed bucket for a tie between the leading buckets, but detectSpeechLevel
returns the casual bucket. -/
theorem c8_lead_tie_returns_casual_not_mixed :
    formalCount "이상해요. 좋은 사람임." = 1 ∧
    informalCount "이상해요. 좋은 사람임." = 0 ∧
    casualCount "이상해요. 좋은 사람임." = 1 ∧
    detectSpeechLevel "이상해요. 좋은 사람임." = SpeechLevel.casual ∧
    SpeechLevel.casual ≠ SpeechLevel.mixed := by
  refine ⟨?_, ?_, ?_, ?_, ?_⟩ <;> decide

/-- C8 (amended): detectSpeechLevel counts per-sentence matches of the
three regex families and returns the strict-majority bucket whenever one
count strictly exceeds both others; the mixed bucket is returned exactly
when no pattern matches at all (all three counts are zero).  Ties are
not mixed: they are resolved by the cascade formal-if-strictly-greatest,
then casual-if-above-informal, then informal-if-any. -/
theorem c8_majority_and_mixed_amended (text : String) :
    (formalCount text > informalCount text ∧
        formalCount text > casualCount text →
      detectSpeechLevel text = SpeechLevel.formal) ∧
    (casualCount text > formalCount text ∧
        casualCount text > informalCount text →
      detectSpeechLevel text = SpeechLevel.casual) ∧
    (informalCount text > formalCount text ∧
        informalCount text > casualCount text →
      detectSpeechLevel text = SpeechLevel.informal) ∧
    (detectSpeechLevel text = SpeechLevel.mixed ↔
      formalCount text = 0 ∧ informalCount text = 0 ∧ casualCount text = 0) := by
  refine ⟨?_, ?_, ?_, ?_⟩
  · rintro ⟨h1, h2⟩
    simp only [detectSpeechLevel]
    rw [if_pos ⟨h1, h2⟩]
  · rintro ⟨h1, h2⟩
    simp only [detectSpeechLevel]
    rw [if_neg (by rintro ⟨h3, h4⟩; omega), if_pos h2]
  · rintro ⟨h1, h2⟩
    simp only [detectSpeechLevel]
    rw [if_neg (by rintro ⟨h3, h4⟩; omega), if_neg (by omega),
      if_pos (by omega)]
  · simp only [detectSpeechLevel]
    split_ifs with h1 h2 h3
    · constructor
      · intro h; exact absurd h (by decide)
      · rintro ⟨hf, hi, hc⟩; exact absurd h1.1 (by omega)
    · constructor
      · intro h; exact absurd h (by decide)
      · rintro ⟨hf, hi, hc⟩; exact absurd h2 (by omega)
    · constructor
      · intro h; exact absurd h (by decide)
      · rintro ⟨hf, hi, hc⟩; exact absurd h3 (by omega)
    · constructor
      · intro _
        have hi : informalCount text = 0 := by omega
        have hc : casualCount text = 0 := by omega
        have hf : formalCount text = 0 := by
          by_contra hf0
          exact h1 ⟨by omega, by omega⟩
        exact ⟨hf, hi, hc⟩
      · intro _; rfl

/-- C8 witness: concrete lines realizing each strict-majority bucket and
the no-match mixed bucket. -/
theorem c8_majority_and_mixed_witness :
    detectSpeechLevel "좋아요." = SpeechLevel.formal ∧
    detectSpeechLevel "좋은 사람임." = SpeechLevel.casual ∧
    detectSpeechLevel "뭐 하는 거야." = SpeechLevel.informal ∧
    detectSpeechLevel "그래서." = SpeechLevel.mixed :=
  ⟨(c8_majority_and_mixed_amended "좋아요.").1 ⟨by decide, by decide⟩,
   (c8_majority_and_mixed_amended "좋은 사람임.").2.1 ⟨by decide, by decide⟩,
   (c8_majority_and_mixed_amended "뭐 하는 거야.").2.2.1 ⟨by decide, by decide⟩,
   (c8_majority_and_mixed_amended "그래서.").2.2.2.mpr
     ⟨by decide, by decide, by decide⟩⟩

/-- C10: for a loaded store and a name not already a key of the character
map, a successful addCharacter stores the new character under map key
`name` with the freshly generated id; whenever that id differs from the
name, validateMemory on the resulting document reports the
'Character key does not match character.id' error and returns
valid = false. -/
theorem c10_add_character_fails_validation (fs : FS) (m : WriterMemory)
    (name : String) (options : AddCharacterOptions) (newId t : String)
    (hdisk : fs.disk = some m)
    (habsent : lookupChar m.characters name = none)
    (hne : newId ≠ name) :
    ((addCharacter fs name options newId t).2.map Character.id) = some newId ∧
    ((addCharacter fs name options newId t).2.map Character.name) = some name ∧
    ∀ m', (addCharacter fs name options newId t).1.disk = some m' →
      ((lookupChar m'.characters name).map Character.id) = some newId ∧
      keyMismatchError name newId ∈ (validateMemory m').errors ∧
      (validateMemory m').valid = false := by
  simp only [addCharacter, loadMemory, hdisk, habsent]
  refine ⟨rfl, rfl, ?_⟩
  intro m' hm'
  rw [saveMemoryFS_disk] at hm'
  injection hm' with hm''
  subst hm''
  have hfind : m.characters.find? (fun kv => kv.1 = name) = none :=
    Option.map_eq_none'.mp habsent
  refine ⟨?_, ?_, ?_⟩
  · simp only [refreshUpdated, lookupChar]
    rw [find?_append_of_none _ hfind]
    simp [List.find?]
  · exact (validate_append_mismatch m name _ t hne).1
  · exact (validate_append_mismatch m name _ t hne).2

/-- C10 witness: adding 서연 to the fresh base store with generated id
char_1_a3f stores it under key 서연; the resulting document fails
validation. -/
theorem c10_add_character_fails_validation_witness :
    ((addCharacter fsBase "서연" noCharOptions "char_1_a3f" "t1").2.map
      Character.id) = some "char_1_a3f" ∧
    (validateMemory
      ((addCharacter fsBase "서연" noCharOptions "char_1_a3f" "t1").1.disk.getD
        baseDoc)).valid = false := by
  have h := c10_add_character_fails_validation fsBase baseDoc "서연"
    noCharOptions "char_1_a3f" "t1" rfl (by decide) (by decide)
  exact ⟨h.1, (h.2.2 _ rfl).2.2⟩

/-- C4: dense ordering.  After every addScene / removeScene /
reorderScenes call the multiset of scene `order` values is exactly
0..n-1 provided it was before, and after every addCut / removeCut /
reorderCuts call the `order` values of the affected scene's cuts are
exactly 0..m-1 provided they were before (failed calls leave the store
unchanged, so the invariant persists there as well). -/
theorem c4_dense_orders :
    (∀ fs m title o newId t m', fs.disk = some m → scenesDense m →
      (addScene fs title o newId t).1.disk = some m' → scenesDense m') ∧
    (∀ fs m sid t m', fs.disk = some m → scenesDense m →
      (removeScene fs sid t).1.disk = some m' → scenesDense m') ∧
    (∀ fs m ids t m', fs.disk = some m → scenesDense m →
      (reorderScenes fs ids t).1.disk = some m' → scenesDense m') ∧
    (∀ fs m sid cut t m' s s', fs.disk = some m →
      findSceneById m sid = some s → cutsDense s →
      (addCut fs sid cut t).1.disk = some m' →
      findSceneById m' sid = some s' → cutsDense s') ∧
    (∀ fs m sid co t m' s s', fs.disk = some m →
      findSceneById m sid = some s → cutsDense s →
      (removeCut fs sid co t).1.disk = some m' →
      findSceneById m' sid = some s' → cutsDense s') ∧
    (∀ fs m sid no t m' s s', fs.disk = some m →
      findSceneById m sid = some s → cutsDense s →
      (reorderCuts fs sid no t).1.disk = some m' →
      findSceneById m' sid = some s' → cutsDense s') := by
  refine ⟨?_, ?_, ?_, ?_, ?_, ?_⟩
  · intro fs m title o newId t m' hdisk hdense hres
    simp only [addScene, loadMemory, hdisk, saveMemoryFS_disk] at hres
    injection hres with h
    subst h
    unfold scenesDense at hdense ⊢
    simp only [refreshUpdated]
    exact scenesDense_append _ hdense rfl
  · intro fs m sid t m' hdisk hdense hres
    simp only [removeScene, loadMemory, hdisk] at hres
    cases hidx : m.scenes.findIdx? (fun s => s.id = sid) with
    | none =>
      rw [hidx] at hres
      have hres' : fs.disk = some m' := hres
      rw [hdisk] at hres'
      injection hres' with h
      subst h
      exact hdense
    | some index =>
      rw [hidx] at hres
      simp only [saveMemoryFS_disk] at hres
      injection hres with h
      subst h
      unfold scenesDense
      simp only [refreshUpdated]
      rw [renumberScenes_map_order, renumberScenes_length]
  · intro fs m ids t m' hdisk hdense hres
    simp only [reorderScenes, loadMemory, hdisk] at hres
    by_cases h1 : ids.length ≠ m.scenes.length
    · rw [if_pos h1] at hres
      have hres' : fs.disk = some m' := hres
      rw [hdisk] at hres'
      injection hres' with h
      subst h
      exact hdense
    · rw [if_neg h1] at hres
      by_cases h2 : ¬ ids.all (fun id => (sceneMapGet m.scenes id).isSome)
      · rw [if_pos h2] at hres
        have hres' : fs.disk = some m' := hres
        rw [hdisk] at hres'
        injection hres' with h
        subst h
        exact hdense
      · rw [if_neg h2] at hres
        simp only [saveMemoryFS_disk] at hres
        injection hres with h
        subst h
        unfold scenesDense
        simp only [refreshUpdated]
        rw [renumberScenes_map_order, renumberScenes_length]
  · intro fs m sid cut t m' s s' hdisk hfind hdense hres hfind'
    simp only [addCut, loadMemory, hdisk, hfind, saveMemoryFS_disk] at hres
    injection hres with h
    subst h
    have hid : s.id = sid := find?_scene_id hfind
    have h1 := @find?_replaceFirstScene m.scenes sid s { s with cuts := s.cuts ++ [{ order := s.cuts.length, type := cut.type, content := cut.content, character := cut.character, emotionTag := cut.emotionTag }] } hid hfind
    have h2' := h1.symm.trans hfind'
    injection h2' with h3
    subst h3
    exact cutsDense_append s _ hdense rfl
  · intro fs m sid co t m' s s' hdisk hfind hdense hres hfind'
    simp only [removeCut, loadMemory, hdisk, hfind] at hres
    cases hidx : s.cuts.findIdx? (fun c => c.order = co) with
    | none =>
      rw [hidx] at hres
      have hres' : fs.disk = some m' := hres
      rw [hdisk] at hres'
      injection hres' with h
      subst h
      rw [hfind] at hfind'
      injection hfind' with h2
      subst h2
      exact hdense
    | some index =>
      rw [hidx] at hres
      simp only [saveMemoryFS_disk] at hres
      injection hres with h
      subst h
      have hid : s.id = sid := find?_scene_id hfind
      have h1 := @find?_replaceFirstScene m.scenes sid s { s with cuts := renumberCuts (s.cuts.eraseIdx index) } hid hfind
      have h2' := h1.symm.trans hfind'
      injection h2' with h3
      subst h3
      exact cutsDense_renumber _ _ rfl
  · intro fs m sid no t m' s s' hdisk hfind hdense hres hfind'
    simp only [reorderCuts, loadMemory, hdisk, hfind] at hres
    by_cases h1 : no.length ≠ s.cuts.length
    · rw [if_pos h1] at hres
      have hres' : fs.disk = some m' := hres
      rw [hdisk] at hres'
      injection hres' with h
      subst h
      rw [hfind] at hfind'
      injection hfind' with h2
      subst h2
      exact hdense
    · rw [if_neg h1] at hres
      by_cases h2 : List.insertionSort (· ≤ ·) no ≠
          (List.range no.length).map Int.ofNat
      · rw [if_pos h2] at hres
        have hres' : fs.disk = some m' := hres
        rw [hdisk] at hres'
        injection hres' with h
        subst h
        rw [hfind] at hfind'
        injection hfind' with h2
        subst h2
        exact hdense
      · rw [if_neg h2] at hres
        simp only [saveMemoryFS_disk] at hres
        injection hres with h
        subst h
        have hid : s.id = sid := find?_scene_id hfind
        have h1 := @find?_replaceFirstScene m.scenes sid s { s with cuts := renumberCuts (no.map (fun oldIdx => s.cuts.getD oldIdx.toNat dummyCut)) } hid hfind
        have h2' := h1.symm.trans hfind'
        injection h2' with h3
        subst h3
        exact cutsDense_renumber _ _ rfl

/-- C4 witness: each of the six operations applied to the concrete
two-scene store (scene_0 has three dense cuts) yields a document whose
scene orders, and the affected scene's cut orders, are dense. -/
theorem c4_dense_orders_witness :
    scenesDense ((addScene fsS "새 장면" noSceneOptions "scene_9" "t9").1.disk.getD
      baseDoc) ∧
    scenesDense ((removeScene fsS "scene_0" "t9").1.disk.getD baseDoc) ∧
    scenesDense ((reorderScenes fsS ["scene_1", "scene_0"] "t9").1.disk.getD
      baseDoc) ∧
    cutsDense ((findSceneById
      ((addCut fsS "scene_0"
        { type := .narration, content := "c3", character := none,
          emotionTag := none } "t9").1.disk.getD baseDoc) "scene_0").getD
      sceneS0) ∧
    cutsDense ((findSceneById
      ((removeCut fsS "scene_0" 1 "t9").1.disk.getD baseDoc) "scene_0").getD
      sceneS0) ∧
    cutsDense ((findSceneById
      ((reorderCuts fsS "scene_0" [2, 0, 1] "t9").1.disk.getD baseDoc)
      "scene_0").getD sceneS0) := by
  refine ⟨?_, ?_, ?_, ?_, ?_, ?_⟩
  · exact c4_dense_orders.1 fsS docScenes "새 장면" noSceneOptions "scene_9"
      "t9" _ rfl (by decide) rfl
  · exact c4_dense_orders.2.1 fsS docScenes "scene_0" "t9" _ rfl (by decide) rfl
  · exact c4_dense_orders.2.2.1 fsS docScenes ["scene_1", "scene_0"] "t9" _ rfl
      (by decide) rfl
  · exact c4_dense_orders.2.2.2.1 fsS docScenes "scene_0"
      { type := .narration, content := "c3", character := none,
        emotionTag := none } "t9" _ sceneS0 _ rfl (by decide) (by decide) rfl rfl
  · exact c4_dense_orders.2.2.2.2.1 fsS docScenes "scene_0" 1 "t9" _ sceneS0 _
      rfl (by decide) (by decide) rfl rfl
  · exact c4_dense_orders.2.2.2.2.2 fsS docScenes "scene_0" [2, 0, 1] "t9" _
      sceneS0 _ rfl (by decide) (by decide) rfl rfl

/-- C9: reorderCuts validation and reorder contract.  For a stored scene,
the call fails with false and an untouched store whenever the supplied
array's length differs from the cut count or its ascending sort is not
exactly [0..m-1]; for a valid permutation it succeeds and cut i of the
scene's new cut list is the former cut at position newOrder[i] with its
order field set to i. -/
theorem c9_reorder_cuts_contract (fs : FS) (m : WriterMemory) (sid : String)
    (s : Scene) (newOrder : List Int) (t : String)
    (hdisk : fs.disk = some m) (hscene : findSceneById m sid = some s) :
    (¬ (newOrder.length = s.cuts.length ∧
        List.insertionSort (· ≤ ·) newOrder =
          (List.range s.cuts.length).map Int.ofNat) →
      reorderCuts fs sid newOrder t = (fs, false)) ∧
    (newOrder.length = s.cuts.length →
      List.insertionSort (· ≤ ·) newOrder =
        (List.range s.cuts.length).map Int.ofNat →
      (reorderCuts fs sid newOrder t).2 = true ∧
      ∀ m', (reorderCuts fs sid newOrder t).1.disk = some m' →
        ∀ s', findSceneById m' sid = some s' →
          s'.cuts.length = s.cuts.length ∧
          ∀ i, i < s.cuts.length →
            (newOrder.getD i 0).toNat < s.cuts.length ∧
            s'.cuts.getD i dummyCut =
              { s.cuts.getD (newOrder.getD i 0).toNat dummyCut with
                order := i }) := by
  constructor
  · intro hnot
    simp only [reorderCuts, loadMemory, hdisk, hscene]
    by_cases h1 : newOrder.length ≠ s.cuts.length
    · rw [if_pos h1]
    · have hlen : newOrder.length = s.cuts.length := not_not.mp h1
      rw [if_neg h1]
      have hsort : List.insertionSort (· ≤ ·) newOrder ≠
          (List.range newOrder.length).map Int.ofNat := by
        rw [hlen]
        intro heq
        exact hnot ⟨hlen, heq⟩
      rw [if_pos hsort]
  · intro hlen hsort
    have h1 : ¬ newOrder.length ≠ s.cuts.length := not_not.mpr hlen
    have h2 : ¬ (List.insertionSort (· ≤ ·) newOrder ≠
        (List.range newOrder.length).map Int.ofNat) := by
      rw [hlen]
      exact not_not.mpr hsort
    constructor
    · simp only [reorderCuts, loadMemory, hdisk, hscene]
      rw [if_neg h1, if_neg h2]
    · intro m' hm'
      simp only [reorderCuts, loadMemory, hdisk, hscene] at hm'
      rw [if_neg h1, if_neg h2] at hm'
      simp only [saveMemoryFS_disk] at hm'
      injection hm' with h
      subst h
      intro s' hs'
      have hid : s.id = sid := find?_scene_id hscene
      have hrep := @find?_replaceFirstScene m.scenes sid s { s with cuts := renumberCuts (newOrder.map (fun oldIdx => s.cuts.getD oldIdx.toNat dummyCut)) } hid hscene
      have h2' := hrep.symm.trans hs'
      injection h2' with h3
      subst h3
      constructor
      · show (renumberCuts (newOrder.map
          (fun oldIdx => s.cuts.getD oldIdx.toNat dummyCut))).length =
          s.cuts.length
        rw [renumberCuts_length, List.length_map, hlen]
      · intro i hi
        have hiN : i < newOrder.length := by rw [hlen]; exact hi
        have hmemN : newOrder.getD i 0 ∈ newOrder :=
          getD_mem_of_lt newOrder i 0 hiN
        have hmemS : newOrder.getD i 0 ∈
            List.insertionSort (· ≤ ·) newOrder :=
          ((List.perm_insertionSort _ newOrder).mem_iff).mpr hmemN
        rw [hsort] at hmemS
        obtain ⟨k, hk, hkeq⟩ := List.mem_map.mp hmemS
        have hkr : k < s.cuts.length := List.mem_range.mp hk
        have htn : (newOrder.getD i 0).toNat < s.cuts.length := by
          rw [← hkeq]
          simpa using hkr
        refine ⟨htn, ?_⟩
        show (renumberCuts (newOrder.map
            (fun oldIdx => s.cuts.getD oldIdx.toNat dummyCut))).getD i
            dummyCut =
          { s.cuts.getD (newOrder.getD i 0).toNat dummyCut with order := i }
        have hlenmap : i < (newOrder.map
            (fun oldIdx => s.cuts.getD oldIdx.toNat dummyCut)).length := by
          rw [List.length_map]
          exact hiN
        rw [renumberCuts, renumberCutsFrom_getD _ 0 i hlenmap]
        rw [getD_map_of_lt _ newOrder i 0 dummyCut hiN]
        rw [Nat.zero_add]

/-- C9 witness: on the concrete three-cut scene, [0, 1] (wrong length) and
the sort-invalid [0, 2, 2] both fail leaving the store untouched, while
the permutation [2, 0, 1] succeeds and places the former cut 2 first with
order 0. -/
theorem c9_reorder_cuts_contract_witness :
    reorderCuts fsS "scene_0" [0, 1] "t9" = (fsS, false) ∧
    reorderCuts fsS "scene_0" [0, 2, 2] "t9" = (fsS, false) ∧
    (reorderCuts fsS "scene_0" [2, 0, 1] "t9").2 = true ∧
    ((findSceneById ((reorderCuts fsS "scene_0" [2, 0, 1] "t9").1.disk.getD
        baseDoc) "scene_0").getD sceneS0).cuts.getD 0 dummyCut =
      { sceneS0.cuts.getD 2 dummyCut with order := 0 } := by
  have hfail1 := (c9_reorder_cuts_contract fsS docScenes "scene_0" sceneS0
    [0, 1] "t9" rfl (by decide)).1 (by decide)
  have hfail2 := (c9_reorder_cuts_contract fsS docScenes "scene_0" sceneS0
    [0, 2, 2] "t9" rfl (by decide)).1 (by decide)
  have hok := (c9_reorder_cuts_contract fsS docScenes "scene_0" sceneS0
    [2, 0, 1] "t9" rfl (by decide)).2 (by decide) (by decide)
  refine ⟨hfail1, hfail2, hok.1, ?_⟩
  exact ((hok.2 _ rfl _ rfl).2 0 (by decide)).2

/-- C7: backup retention.  Starting from a present store and an empty
backup directory, after N > MAX_BACKUPS saves whose backup file names
are strictly ascending (the lexicographically sortable timestamped
names), exactly MAX_BACKUPS backup files remain and they are the
MAX_BACKUPS lexicographically greatest names — pruning always deleted
the oldest first. -/
theorem c7_backup_retention (fs : FS) (saves : List (WriterMemory × String))
    (hdisk : fs.disk.isSome) (hempty : fs.backups = [])
    (hsorted : (saves.map (fun p => backupFileName p.2)).Sorted (· < ·))
    (hn : MAX_BACKUPS < saves.length) :
    (runSaves fs saves).backups =
      (saves.map (fun p => backupFileName p.2)).drop
        (saves.length - MAX_BACKUPS) ∧
    (runSaves fs saves).backups.length = MAX_BACKUPS := by
  have h1 := (runSaves_backups saves fs hdisk).1
  rw [hempty] at h1
  rw [h1, foldl_backupStep_sorted _ hsorted]
  have hlenmap : (saves.map (fun p => backupFileName p.2)).length =
      saves.length := List.length_map _ _
  constructor
  · rw [hlenmap]
  · rw [List.length_drop, hlenmap]
    simp only [MAX_BACKUPS] at *
    omega

/-- Concrete list of 21 saves with ascending timestamps. -/
def saves21 : List (WriterMemory × String) :=
  [(baseDoc, "2024-01-01T00-00-10"), (baseDoc, "2024-01-01T00-00-11"), (baseDoc, "2024-01-01T00-00-12"), (baseDoc, "2024-01-01T00-00-13"), (baseDoc, "2024-01-01T00-00-14"), (baseDoc, "2024-01-01T00-00-15"), (baseDoc, "2024-01-01T00-00-16"), (baseDoc, "2024-01-01T00-00-17"), (baseDoc, "2024-01-01T00-00-18"), (baseDoc, "2024-01-01T00-00-19"), (baseDoc, "2024-01-01T00-00-20"), (baseDoc, "2024-01-01T00-00-21"), (baseDoc, "2024-01-01T00-00-22"), (baseDoc, "2024-01-01T00-00-23"), (baseDoc, "2024-01-01T00-00-24"), (baseDoc, "2024-01-01T00-00-25"), (baseDoc, "2024-01-01T00-00-26"), (baseDoc, "2024-01-01T00-00-27"), (baseDoc, "2024-01-01T00-00-28"), (baseDoc, "2024-01-01T00-00-29"), (baseDoc, "2024-01-01T00-00-30")]

/-- C7 witness: 21 saves on the fresh store retain exactly the 20 most
recent backup names. -/
theorem c7_backup_retention_witness :
    (runSaves fsBase saves21).backups =
      (saves21.map (fun p => backupFileName p.2)).drop
        (saves21.length - MAX_BACKUPS) ∧
    (runSaves fsBase saves21).backups.length = MAX_BACKUPS := by
  refine c7_backup_retention fsBase saves21 rfl rfl ?_ (by decide)
  have h : (saves21.map (fun p => backupFileName p.2)).Pairwise
      (fun a b : String => a.toList < b.toList) := by decide
  exact h.imp (fun hab => String.lt_iff_toList_lt.mpr hab)

end WM
